import Mathlib

/-!
# Verification of the movies-next-ssr search/list core

A shallow embedding of the client-side search orchestration logic of
`src/pages/index.tsx`, the list-management page (`src/unnamed/part_000`),
and the auth gate (`src/components/assets/WithAuth.tsx`), together with
proofs of the spec's claims about them.

Conventions of the embedding:
* Remote collaborators (the TMDB search API, the list API, auth) are
  opaque oracles passed as function arguments returning `Except ApiError _`.
* React `useState` cells become fields of an explicit state record;
  `useEffect` runs and promise completions become events of a small
  labelled transition system (`step`).
* The `isCancelled` closure flag of the search effect is embedded by
  generation numbers: the cleanup of effect run `g` executes exactly when
  run `g + 1` starts, so a completion of run `g` passes its
  `!isCancelled` check exactly when `g` is still the latest fetch-issuing
  run, i.e. `g + 1 = issued.length`.
-/

namespace Movies

/-- The `Tab` union type of `src/pages/index.tsx`:
`type Tab = 'all' | 'movie' | 'tv' | 'person'`. -/
inductive Tab where
  | all
  | movie
  | tv
  | person
deriving DecidableEq, Repr

/-- The search intent: the triple of router-derived values
`search`, `tab`, `page` of `src/pages/index.tsx` (lines 165-167). -/
structure SearchIntent where
  query : String
  tab : Tab
  page : Nat
deriving DecidableEq, Repr

/-- Modelled from the spec: `ApiError{status, message}` (`src/lib/api` is
not among the provided sources; shape from spec section 6). -/
structure ApiError where
  status : Nat
  message : String
deriving DecidableEq, Repr

/-- The `ApiResponse` envelope as used by `src/pages/index.tsx`:
`{status:'pending'}`, `{status:'resolved', data}`,
`{status:'rejected', error}`.  The error field is optional because the
`default` branch of the tab switch writes `{status:'rejected'}` with no
error (`src/lib/api` itself is not among the provided sources; the shape
is reconstructed from every use site in `src/pages/index.tsx`). -/
inductive ApiResponse (Data : Type) where
  | pending
  | resolved (data : Data)
  | rejected (error : Option ApiError)
deriving DecidableEq, Repr

/-- Which remote search operation a fetch site invokes, and with which
arguments.  Constructors mirror the imported functions `searchAll`,
`searchMovie`, `searchTv`, `searchPerson`, `getTrending` of
`src/pages/index.tsx`; the first four are always called with
`{query, page}` and `getTrending` with no arguments. -/
inductive RemoteOp where
  | searchAll (query : String) (page : Nat)
  | searchMovie (query : String) (page : Nat)
  | searchTv (query : String) (page : Nat)
  | searchPerson (query : String) (page : Nat)
  | getTrending
deriving DecidableEq, Repr

/-- JavaScript's `String.prototype.trim`: strip whitespace from both
ends of the string.  (Defined over the character list so it reduces in
the kernel; `String.trim` of the standard library is extensionally the
same on the ASCII inputs at issue but is not kernel-reducible.) -/
def jsTrim (s : String) : String :=
  ⟨((s.data.dropWhile Char.isWhitespace).reverse.dropWhile
      Char.isWhitespace).reverse⟩

/-- The guard `search && search.trim() !== ''` used by both the SSR path
(line 71) and the client effect (line 176) of `src/pages/index.tsx`. -/
def hasQuery (search : String) : Bool :=
  (search != "") && (jsTrim search != "")

/-- The remote operation selected by the client-side search effect of
`src/pages/index.tsx` (lines 176-285): the tab switch when the query is
non-empty, `getTrending` otherwise. -/
def clientFetch (search : String) (tab : Tab) (page : Nat) : RemoteOp :=
  if hasQuery search then
    match tab with
    | .all => .searchAll search page
    | .movie => .searchMovie search page
    | .tv => .searchTv search page
    | .person => .searchPerson search page
  else
    .getTrending

/-- The remote operation selected by `getServerSideProps` of
`src/pages/index.tsx` (lines 70-126): the same tab switch, with the same
trending fallback. -/
def ssrSearchOp (search : String) (tab : Tab) (page : Nat) : RemoteOp :=
  if hasQuery search then
    match tab with
    | .all => .searchAll search page
    | .movie => .searchMovie search page
    | .tv => .searchTv search page
    | .person => .searchPerson search page
  else
    .getTrending

/-- The tab-to-operation mapping in the spec's words (spec section 4.2,
step 2), stated independently of the source so the two fetch sites can be
compared against it. -/
def tabOperation (tab : Tab) (query : String) (page : Nat) : RemoteOp :=
  match tab with
  | .all => .searchAll query page
  | .movie => .searchMovie query page
  | .tv => .searchTv query page
  | .person => .searchPerson query page

/-- The formatter family imported from `src/lib/format` (not among the
provided sources); the orchestrator is parametric in it. -/
structure Formatters (Data Item : Type) where
  formatSearchAll : Data → List Item
  formatSearchMovie : Data → List Item
  formatSearchTvShow : Data → List Item
  formatSearchPerson : Data → List Item

/-- The formatter applied by the success callback of the client-side
search effect of `src/pages/index.tsx`: chosen by the same branch as the
operation (`formatSearchAll` on the trending fallback). -/
def clientFormat {Data Item : Type} (fmts : Formatters Data Item)
    (search : String) (tab : Tab) : Data → List Item :=
  if hasQuery search then
    match tab with
    | .all => fmts.formatSearchAll
    | .movie => fmts.formatSearchMovie
    | .tv => fmts.formatSearchTvShow
    | .person => fmts.formatSearchPerson
  else
    fmts.formatSearchAll

/-- The formatter applied by `getServerSideProps` of
`src/pages/index.tsx`, branch for branch. -/
def ssrFormat {Data Item : Type} (fmts : Formatters Data Item)
    (search : String) (tab : Tab) : Data → List Item :=
  if hasQuery search then
    match tab with
    | .all => fmts.formatSearchAll
    | .movie => fmts.formatSearchMovie
    | .tv => fmts.formatSearchTvShow
    | .person => fmts.formatSearchPerson
  else
    fmts.formatSearchAll

/-- The props built by `getServerSideProps` of `src/pages/index.tsx`
(`ServerSideResponse`): `searchResults`/`formattedResults` on success,
`error` on failure. -/
structure ServerSideResponse (Data Item : Type) where
  searchResults : Option Data
  formattedResults : Option (List Item)
  error : Option ApiError
deriving DecidableEq, Repr

/-- `getServerSideProps` of `src/pages/index.tsx` (lines 66-134): select
the fetch by the query guard and the tab, return the results plus their
formatted form; the surrounding try/catch turns any fetch failure into
`{ error }` props. -/
def indexGetServerSideProps {Data Item : Type}
    (api : RemoteOp → Except ApiError Data) (fmts : Formatters Data Item)
    (search : String) (tab : Tab) (page : Nat) :
    ServerSideResponse Data Item :=
  if hasQuery search then
    match tab with
    | .all =>
      match api (.searchAll search page) with
      | .ok d => ⟨some d, some (fmts.formatSearchAll d), none⟩
      | .error e => ⟨none, none, some e⟩
    | .movie =>
      match api (.searchMovie search page) with
      | .ok d => ⟨some d, some (fmts.formatSearchMovie d), none⟩
      | .error e => ⟨none, none, some e⟩
    | .tv =>
      match api (.searchTv search page) with
      | .ok d => ⟨some d, some (fmts.formatSearchTvShow d), none⟩
      | .error e => ⟨none, none, some e⟩
    | .person =>
      match api (.searchPerson search page) with
      | .ok d => ⟨some d, some (fmts.formatSearchPerson d), none⟩
      | .error e => ⟨none, none, some e⟩
  else
    match api .getTrending with
    | .ok d => ⟨some d, some (fmts.formatSearchAll d), none⟩
    | .error e => ⟨none, none, some e⟩

theorem hasQuery_eq_false_of_trim {q : String} (h : jsTrim q = "") :
    hasQuery q = false := by
  simp [hasQuery, h]

theorem indexGetServerSideProps_factor {Data Item : Type}
    (api : RemoteOp → Except ApiError Data) (fmts : Formatters Data Item)
    (search : String) (tab : Tab) (page : Nat) :
    indexGetServerSideProps api fmts search tab page =
      match api (ssrSearchOp search tab page) with
      | .ok d => ⟨some d, some (ssrFormat fmts search tab d), none⟩
      | .error e => ⟨none, none, some e⟩ := by
  unfold indexGetServerSideProps ssrSearchOp ssrFormat
  by_cases h : hasQuery search = true
  · simp only [h, if_true]
    cases tab <;> rfl
  · simp only [Bool.not_eq_true] at h
    simp only [h]
    rfl

/-- The pair of writes a non-cancelled completion performs in
`src/pages/index.tsx` (lines 187-198 and analogues): on success
`setSearchResults({status:'resolved', data})` plus
`setFormattedResults(format(data))`; on failure
`setSearchResults({status:'rejected', error})` plus
`setFormattedResults([])`. -/
def completionUpdate {Data Item : Type}
    (api : RemoteOp → Except ApiError Data) (fmts : Formatters Data Item)
    (i : SearchIntent) : ApiResponse Data × List Item :=
  match api (clientFetch i.query i.tab i.page) with
  | .ok data => (.resolved data, clientFormat fmts i.query i.tab data)
  | .error e => (.rejected (some e), [])

/-- The initial `searchResults` state of the `Home` component
(`src/pages/index.tsx` lines 143-155): resolved from
`props.searchResults` when present, otherwise rejected from
`props.error` when present, otherwise pending. -/
def initialSearchResults {Data Item : Type}
    (props : ServerSideResponse Data Item) : ApiResponse Data :=
  match props.searchResults with
  | some data => .resolved data
  | none =>
    match props.error with
    | some e => .rejected (some e)
    | none => .pending

/-- The state of the `Home` component of `src/pages/index.tsx`.
`searchResults`/`formattedResults` are the two `useState` cells and
`firstRun` the ref of line 161; `tabRef` records whether the results
region's DOM ref is mounted (`tabRef.current` truthy).  The remaining
fields are history/bookkeeping of the transition system: `issued` lists
the intents of all fetch-issuing effect runs in order (its index is the
run's generation), `inflight` the generations whose fetch has not yet
completed, `history` every value ever held by `searchResults` (newest
first), and `scrolls` counts the `scrollIntoView` calls of line 178. -/
structure HomeState (Data Item : Type) where
  searchResults : ApiResponse Data
  formattedResults : List Item
  firstRun : Bool
  tabRef : Bool
  issued : List SearchIntent
  inflight : List Nat
  history : List (ApiResponse Data)
  scrolls : Nat
deriving DecidableEq, Repr

/-- The `Home` component's mount state: `useState` initialisers from the
server-side props (`src/pages/index.tsx` lines 143-158), `firstRun`
true, nothing issued or in flight. -/
def initHomeState {Data Item : Type}
    (props : ServerSideResponse Data Item) : HomeState Data Item where
  searchResults := initialSearchResults props
  formattedResults := props.formattedResults.getD []
  firstRun := true
  tabRef := true
  issued := []
  inflight := []
  history := [initialSearchResults props]
  scrolls := 0

/-- Events of the orchestrator: `change q t p` is one run of the search
`useEffect` (triggered by mount or by a change of `search`/`page`/`tab`,
its dependency array); `complete g` is the arrival (resolution or
rejection) of the fetch issued by generation `g`. -/
inductive Event where
  | change (query : String) (tab : Tab) (page : Nat)
  | complete (gen : Nat)
deriving DecidableEq, Repr

/-- One transition of the `Home` search orchestrator
(`src/pages/index.tsx` lines 170-293).

A `change` during the first run only flips the `firstRun` ref (lines
290-292).  Afterwards each run synchronously writes the pending
envelope, scrolls when the query is non-empty and the ref mounted, and
issues its fetch; starting run `g+1` runs run `g`'s cleanup, so the new
generation is the only one whose `isCancelled` is still false — which is
exactly the `gen + 1 = issued.length` test below.

A `complete gen` for a generation still in flight applies
`completionUpdate` if the generation is current, and is discarded
(beyond leaving the in-flight set) otherwise. -/
def step {Data Item : Type}
    (api : RemoteOp → Except ApiError Data) (fmts : Formatters Data Item)
    (s : HomeState Data Item) (e : Event) : HomeState Data Item :=
  match e with
  | .change query tab page =>
    if s.firstRun then
      { s with firstRun := false }
    else
      { s with
        searchResults := .pending
        history := .pending :: s.history
        scrolls := if hasQuery query && s.tabRef then s.scrolls + 1 else s.scrolls
        issued := s.issued ++ [⟨query, tab, page⟩]
        inflight := s.issued.length :: s.inflight }
  | .complete gen =>
    if gen ∈ s.inflight then
      if gen + 1 = s.issued.length then
        match s.issued[gen]? with
        | some intent =>
          { s with
            searchResults := (completionUpdate api fmts intent).1
            formattedResults := (completionUpdate api fmts intent).2
            history := (completionUpdate api fmts intent).1 :: s.history
            inflight := s.inflight.erase gen }
        | none => { s with inflight := s.inflight.erase gen }
      else
        { s with inflight := s.inflight.erase gen }
    else
      s

/-- The effect run triggered by committing a whole `SearchIntent`. -/
def changeEvent (i : SearchIntent) : Event :=
  .change i.query i.tab i.page

/-- Folding a sequence of events through `step`. -/
def run {Data Item : Type}
    (api : RemoteOp → Except ApiError Data) (fmts : Formatters Data Item)
    (s : HomeState Data Item) (events : List Event) : HomeState Data Item :=
  events.foldl (step api fmts) s

section StepLemmas

variable {Data Item : Type}
variable (api : RemoteOp → Except ApiError Data) (fmts : Formatters Data Item)

theorem run_append (s : HomeState Data Item) (l₁ l₂ : List Event) :
    run api fmts s (l₁ ++ l₂) = run api fmts (run api fmts s l₁) l₂ :=
  List.foldl_append _ _ _ _

theorem step_complete_issued (s : HomeState Data Item) (g : Nat) :
    (step api fmts s (.complete g)).issued = s.issued := by
  simp only [step]
  split
  · split
    · split <;> rfl
    · rfl
  · rfl

theorem step_complete_stale (s : HomeState Data Item) (g : Nat)
    (h : g + 1 ≠ s.issued.length) :
    (step api fmts s (.complete g)).searchResults = s.searchResults ∧
    (step api fmts s (.complete g)).formattedResults = s.formattedResults ∧
    (step api fmts s (.complete g)).history = s.history ∧
    (step api fmts s (.complete g)).scrolls = s.scrolls ∧
    (step api fmts s (.complete g)).firstRun = s.firstRun := by
  simp only [step]
  split <;> exact ⟨rfl, rfl, rfl, rfl, rfl⟩

theorem step_complete_inflight_mem (s : HomeState Data Item) (g x : Nat)
    (hx : x ∈ s.inflight) (hne : x ≠ g) :
    x ∈ (step api fmts s (.complete g)).inflight := by
  have herase : x ∈ s.inflight.erase g := (List.mem_erase_of_ne hne).mpr hx
  simp only [step]
  split
  · split
    · split <;> exact herase
    · exact herase
  · exact hx

theorem step_complete_inflight_nodup (s : HomeState Data Item) (g : Nat)
    (h : s.inflight.Nodup) :
    (step api fmts s (.complete g)).inflight.Nodup := by
  simp only [step]
  split
  · split
    · split <;> exact h.erase g
    · exact h.erase g
  · exact h

theorem step_complete_apply (s : HomeState Data Item) (g : Nat)
    (i : SearchIntent) (hg : g ∈ s.inflight) (hlen : g + 1 = s.issued.length)
    (hget : s.issued[g]? = some i) :
    (step api fmts s (.complete g)).searchResults =
      (completionUpdate api fmts i).1 ∧
    (step api fmts s (.complete g)).formattedResults =
      (completionUpdate api fmts i).2 ∧
    (step api fmts s (.complete g)).history =
      (completionUpdate api fmts i).1 :: s.history ∧
    (step api fmts s (.complete g)).inflight = s.inflight.erase g := by
  simp [step, hg, hlen, hget]

theorem step_change_notFirst (s : HomeState Data Item)
    (q : String) (t : Tab) (p : Nat) (h : s.firstRun = false) :
    step api fmts s (.change q t p) =
      { s with
        searchResults := .pending
        history := .pending :: s.history
        scrolls := if hasQuery q && s.tabRef then s.scrolls + 1 else s.scrolls
        issued := s.issued ++ [⟨q, t, p⟩]
        inflight := s.issued.length :: s.inflight } := by
  simp [step, h]

theorem step_change_first (s : HomeState Data Item)
    (q : String) (t : Tab) (p : Nat) (h : s.firstRun = true) :
    step api fmts s (.change q t p) = { s with firstRun := false } := by
  simp [step, h]

/-- Running a batch of effect runs after the first run: the intents are
appended to `issued` in order and each run's generation joins the
in-flight set, newest first. -/
theorem run_changes (is : List SearchIntent) :
    ∀ s : HomeState Data Item, s.firstRun = false →
      (run api fmts s (is.map changeEvent)).issued = s.issued ++ is ∧
      (run api fmts s (is.map changeEvent)).inflight =
        (List.range' s.issued.length is.length).reverse ++ s.inflight ∧
      (run api fmts s (is.map changeEvent)).firstRun = false := by
  induction is with
  | nil =>
    intro s h
    simp only [List.map_nil, run, List.foldl_nil]
    exact ⟨(List.append_nil _).symm, by simp, h⟩
  | cons i rest ih =>
    intro s h
    have hstep := step_change_notFirst api fmts s i.query i.tab i.page h
    have hrun : run api fmts s ((i :: rest).map changeEvent) =
        run api fmts (step api fmts s (.change i.query i.tab i.page))
          (rest.map changeEvent) := by
      simp [run, List.map_cons, List.foldl_cons, changeEvent]
    have hfr : (step api fmts s (.change i.query i.tab i.page)).firstRun = false := by
      rw [hstep]; exact h
    obtain ⟨h1, h2, h3⟩ := ih (step api fmts s (.change i.query i.tab i.page)) hfr
    rw [hrun]
    refine ⟨?_, ?_, h3⟩
    · rw [h1, hstep]
      simp
    · rw [h2, hstep]
      simp only [List.length_append, List.length_cons, List.length_nil,
        Nat.zero_add, List.range'_succ]
      simp [List.append_assoc]

/-- Completions whose generation is not current leave the result state
(envelope, formatted list, issued log) untouched, however many arrive. -/
theorem run_completes_frame (l : List Nat) :
    ∀ s : HomeState Data Item, (∀ g ∈ l, g + 1 ≠ s.issued.length) →
      (run api fmts s (l.map .complete)).searchResults = s.searchResults ∧
      (run api fmts s (l.map .complete)).formattedResults = s.formattedResults ∧
      (run api fmts s (l.map .complete)).issued = s.issued := by
  induction l with
  | nil => intro s _; exact ⟨rfl, rfl, rfl⟩
  | cons g rest ih =>
    intro s hall
    have hrun : run api fmts s ((g :: rest).map .complete) =
        run api fmts (step api fmts s (.complete g)) (rest.map .complete) := by
      simp [run, List.map_cons, List.foldl_cons]
    have hiss := step_complete_issued api fmts s g
    have hst := step_complete_stale api fmts s g (hall g (List.mem_cons_self g rest))
    have hrest := ih (step api fmts s (.complete g)) (by
      intro g' hg'
      rw [hiss]
      exact hall g' (List.mem_cons_of_mem g hg'))
    rw [hrun]
    exact ⟨hrest.1.trans hst.1, hrest.2.1.trans hst.2.1, hrest.2.2.trans hiss⟩

/-- Processing any duplicate-free batch of completions containing the
current generation `N` ends with the envelope and formatted list showing
the current intent's outcome — regardless of the order in which the
completions arrive. -/
theorem run_completes_last (l : List Nat) :
    ∀ (s : HomeState Data Item) (N : Nat) (ilast : SearchIntent),
      l.Nodup → s.issued.length = N + 1 → s.issued[N]? = some ilast →
      N ∈ l → N ∈ s.inflight → s.inflight.Nodup →
      (run api fmts s (l.map .complete)).searchResults =
        (completionUpdate api fmts ilast).1 ∧
      (run api fmts s (l.map .complete)).formattedResults =
        (completionUpdate api fmts ilast).2 := by
  induction l with
  | nil => intro s N ilast _ _ _ hmem _ _; exact absurd hmem (List.not_mem_nil N)
  | cons g rest ih =>
    intro s N ilast hnd hlen hget hmem hinf hinfnd
    have hrun : run api fmts s ((g :: rest).map .complete) =
        run api fmts (step api fmts s (.complete g)) (rest.map .complete) := by
      simp [run, List.map_cons, List.foldl_cons]
    rw [hrun]
    by_cases hgN : g = N
    · subst hgN
      have happ := step_complete_apply api fmts s g ilast hinf hlen.symm hget
      have hgrest : g ∉ rest := (List.nodup_cons.mp hnd).1
      have hframe := run_completes_frame api fmts rest
        (step api fmts s (.complete g)) (by
          intro g' hg'
          rw [step_complete_issued, hlen]
          intro hbad
          exact hgrest (by
            have : g' = g := by omega
            rwa [this] at hg'))
      refine ⟨hframe.1.trans happ.1, hframe.2.1.trans happ.2.1⟩
    · have hst := step_complete_stale api fmts s g (by rw [hlen]; omega)
      have hiss := step_complete_issued api fmts s g
      have := ih (step api fmts s (.complete g)) N ilast
        (List.nodup_cons.mp hnd).2
        (by rw [hiss]; exact hlen)
        (by rw [hiss]; exact hget)
        (by
          rcases List.mem_cons.mp hmem with h | h
          · exact absurd h.symm hgN
          · exact h)
        (step_complete_inflight_mem api fmts s g N hinf (fun h => hgN h.symm))
        (step_complete_inflight_nodup api fmts s g hinfnd)
      exact this

end StepLemmas

/-- C1: after the client has mounted, for any non-empty sequence of
distinct intents all committed before any of their fetches completes,
and any arrival order of the completions (any permutation of the issued
generations), the final envelope and formatted list show exactly the
last-issued intent's outcome; moreover a completion of a superseded
generation never mutates the envelope or the formatted list. -/
theorem search_staleness_last_intent_wins
    (Data Item : Type) (api : RemoteOp → Except ApiError Data)
    (fmts : Formatters Data Item) (props : ServerSideResponse Data Item)
    (intents : List SearchIntent) (perm : List Nat)
    (hne : intents ≠ []) (hnd : intents.Nodup)
    (hperm : perm.Perm (List.range intents.length)) :
    ((run api fmts { initHomeState props with firstRun := false }
        (intents.map changeEvent ++ perm.map Event.complete)).searchResults =
      (completionUpdate api fmts (intents.getLast hne)).1 ∧
     (run api fmts { initHomeState props with firstRun := false }
        (intents.map changeEvent ++ perm.map Event.complete)).formattedResults =
      (completionUpdate api fmts (intents.getLast hne)).2) ∧
    ∀ (s : HomeState Data Item) (g : Nat), g + 1 ≠ s.issued.length →
      (step api fmts s (.complete g)).searchResults = s.searchResults ∧
      (step api fmts s (.complete g)).formattedResults = s.formattedResults := by
  constructor
  · rw [run_append]
    obtain ⟨M, hM⟩ : ∃ M, intents.length = M + 1 := by
      cases intents with
      | nil => exact absurd rfl hne
      | cons a l => exact ⟨l.length, rfl⟩
    set s0 : HomeState Data Item :=
      { initHomeState props with firstRun := false } with hs0
    obtain ⟨hiss, hinf, _⟩ := run_changes api fmts intents s0 rfl
    have hiss' : (run api fmts s0 (intents.map changeEvent)).issued = intents := by
      rw [hiss]; rfl
    have hinf' : (run api fmts s0 (intents.map changeEvent)).inflight =
        (List.range intents.length).reverse := by
      have h0 : s0.issued = [] := rfl
      have h1 : s0.inflight = [] := rfl
      rw [hinf, h0, h1, List.range_eq_range' intents.length]
      simp
    have hget : (run api fmts s0 (intents.map changeEvent)).issued[M]? =
        some (intents.getLast hne) := by
      rw [hiss', ← List.getLast?_eq_getLast intents hne,
        List.getLast?_eq_getElem? intents, hM]
      simp
    have hlen : (run api fmts s0 (intents.map changeEvent)).issued.length
        = M + 1 := by rw [hiss', hM]
    have hMlt : M < intents.length := by omega
    exact run_completes_last api fmts perm _ M (intents.getLast hne)
      (hperm.nodup_iff.mpr (List.nodup_range intents.length))
      hlen hget
      (hperm.mem_iff.mpr (List.mem_range.mpr hMlt))
      (by rw [hinf', List.mem_reverse]; exact List.mem_range.mpr hMlt)
      (by rw [hinf']; exact List.nodup_reverse.mpr (List.nodup_range _))
  · intro s g h
    exact ⟨(step_complete_stale api fmts s g h).1,
      (step_complete_stale api fmts s g h).2.1⟩

/-! Concrete instantiations used to evaluate the orchestrator on sample
inputs. -/

def natApi : RemoteOp → Except ApiError Nat := fun _ => .ok 7

def natApiFail : RemoteOp → Except ApiError Nat :=
  fun _ => .error ⟨500, "boom"⟩

def natFmts : Formatters Nat Nat where
  formatSearchAll := fun d => [d]
  formatSearchMovie := fun d => [d, d]
  formatSearchTvShow := fun d => [d, d, d]
  formatSearchPerson := fun d => [d, d, d, d]

def noProps : ServerSideResponse Nat Nat := ⟨none, none, none⟩

def resolvedProps : ServerSideResponse Nat Nat := ⟨some 5, some [5], none⟩

def intentA : SearchIntent := ⟨"batman", .movie, 1⟩

def intentB : SearchIntent := ⟨"robin", .tv, 2⟩

theorem search_staleness_last_intent_wins_witness :
    ([intentA, intentB] : List SearchIntent) ≠ [] ∧
    ([intentA, intentB] : List SearchIntent).Nodup ∧
    ([1, 0] : List Nat).Perm (List.range 2) ∧
    (run natApi natFmts { initHomeState noProps with firstRun := false }
        ([intentA, intentB].map changeEvent ++
          ([1, 0] : List Nat).map Event.complete)).searchResults =
      (completionUpdate natApi natFmts intentB).1 := by
  refine ⟨by decide, by decide, by decide, ?_⟩
  exact (search_staleness_last_intent_wins Nat Nat natApi natFmts noProps
    [intentA, intentB] [1, 0] (by decide) (by decide) (by decide)).1.1

/-- C4: an intent whose query is empty or whitespace-only always fetches
via the no-argument trending call — in the client orchestrator and in
`getServerSideProps` alike — so its result coincides with that of the
intent `{query:"", tab:all, page:1}` whatever the tab and page were. -/
theorem empty_query_trending_equivalence
    (Data Item : Type) (api : RemoteOp → Except ApiError Data)
    (fmts : Formatters Data Item) (q : String) (t : Tab) (p : Nat)
    (h : jsTrim q = "") :
    clientFetch q t p = .getTrending ∧
    clientFetch q t p = clientFetch "" .all 1 ∧
    ssrSearchOp q t p = .getTrending ∧
    indexGetServerSideProps api fmts q t p =
      indexGetServerSideProps api fmts "" .all 1 ∧
    completionUpdate api fmts ⟨q, t, p⟩ =
      completionUpdate api fmts ⟨"", .all, 1⟩ := by
  have hq := hasQuery_eq_false_of_trim h
  have hq0 : hasQuery "" = false := by decide
  refine ⟨?_, ?_, ?_, ?_, ?_⟩
  · simp [clientFetch, hq]
  · simp [clientFetch, hq, hq0]
  · simp [ssrSearchOp, hq]
  · simp [indexGetServerSideProps, hq, hq0]
  · simp [completionUpdate, clientFetch, clientFormat, hq, hq0]

theorem empty_query_trending_equivalence_witness :
    jsTrim "  " = "" ∧
    clientFetch "  " .person 4 = .getTrending ∧
    indexGetServerSideProps natApi natFmts "  " .person 4 =
      indexGetServerSideProps natApi natFmts "" .all 1 := by
  have h := empty_query_trending_equivalence Nat Nat natApi natFmts
    "  " .person 4 (by decide)
  exact ⟨by decide, h.1, h.2.2.2.1⟩

/-- C7: for a non-empty, non-whitespace query the operation invoked is
determined by the tab exactly as the spec's mapping `tabOperation`
states, with arguments `{query, page}` — in the client fetch selection,
in the SSR fetch selection, and in the full SSR prop computation. -/
theorem tab_selects_remote_operation
    (Data Item : Type) (api : RemoteOp → Except ApiError Data)
    (fmts : Formatters Data Item) (q : String) (t : Tab) (p : Nat)
    (h : hasQuery q = true) :
    clientFetch q t p = tabOperation t q p ∧
    ssrSearchOp q t p = tabOperation t q p ∧
    indexGetServerSideProps api fmts q t p =
      (match api (tabOperation t q p) with
       | .ok d => ⟨some d, some (ssrFormat fmts q t d), none⟩
       | .error e => ⟨none, none, some e⟩) := by
  have h1 : clientFetch q t p = tabOperation t q p := by
    simp only [clientFetch, h, if_true]
    cases t <;> rfl
  have h2 : ssrSearchOp q t p = tabOperation t q p := by
    simp only [ssrSearchOp, h, if_true]
    cases t <;> rfl
  refine ⟨h1, h2, ?_⟩
  rw [indexGetServerSideProps_factor, h2]

theorem tab_selects_remote_operation_witness :
    hasQuery "batman" = true ∧
    clientFetch "batman" .tv 3 = .searchTv "batman" 3 ∧
    ssrSearchOp "batman" .tv 3 = .searchTv "batman" 3 := by
  have h := tab_selects_remote_operation Nat Nat natApi natFmts
    "batman" .tv 3 (by decide)
  exact ⟨by decide, h.1, h.2.1⟩

/-- C5: the first envelope is built from the server-fetched props —
resolved when `searchResults` is present, rejected when `error` is,
pending otherwise — and the effect's first (mount) run only flips the
`firstRun` ref: it issues no fetch and mutates no other state, so the
server-rendered result is not re-fetched or overwritten. -/
theorem initial_state_from_props_no_refetch
    (Data Item : Type) (api : RemoteOp → Except ApiError Data)
    (fmts : Formatters Data Item) (props : ServerSideResponse Data Item)
    (q : String) (t : Tab) (p : Nat) :
    (∀ d, props.searchResults = some d →
      (initHomeState props).searchResults = .resolved d) ∧
    (∀ e, props.searchResults = none → props.error = some e →
      (initHomeState props).searchResults = .rejected (some e)) ∧
    (initHomeState props).firstRun = true ∧
    step api fmts (initHomeState props) (.change q t p) =
      { initHomeState props with firstRun := false } := by
  refine ⟨?_, ?_, rfl, ?_⟩
  · intro d hd
    simp [initHomeState, initialSearchResults, hd]
  · intro e h1 h2
    simp [initHomeState, initialSearchResults, h1, h2]
  · exact step_change_first api fmts _ q t p rfl

theorem initial_state_from_props_no_refetch_witness :
    resolvedProps.searchResults = some 5 ∧
    (initHomeState resolvedProps).searchResults = .resolved 5 ∧
    step natApi natFmts (initHomeState resolvedProps)
        (.change "batman" .movie 1) =
      { initHomeState resolvedProps with firstRun := false } := by
  have h := initial_state_from_props_no_refetch Nat Nat natApi natFmts
    resolvedProps "batman" .movie 1
  exact ⟨rfl, h.1 5 rfl, h.2.2.2⟩

/-! Envelope-transition discipline (claim C6). -/

/-- Whether an envelope value is in the resolved state. -/
def isResolved {Data : Type} : ApiResponse Data → Bool
  | .resolved _ => true
  | _ => false

/-- No two consecutive values of a write history are both resolved. -/
def noTwoResolvedB {Data : Type} : List (ApiResponse Data) → Bool
  | [] => true
  | [_] => true
  | a :: b :: rest => (!(isResolved a && isResolved b)) && noTwoResolvedB (b :: rest)

theorem noTwoResolvedB_cons {Data : Type} (a : ApiResponse Data)
    (h : List (ApiResponse Data)) (ha : isResolved a = false)
    (hh : noTwoResolvedB h = true) : noTwoResolvedB (a :: h) = true := by
  cases h with
  | nil => rfl
  | cons b rest => simp [noTwoResolvedB, ha, hh]

theorem noTwoResolvedB_cons_of_head {Data : Type} (a : ApiResponse Data)
    (h : List (ApiResponse Data)) (hh : noTwoResolvedB h = true)
    (hhead : ∀ b, h.head? = some b → isResolved b = false) :
    noTwoResolvedB (a :: h) = true := by
  cases h with
  | nil => rfl
  | cons b rest => simp [noTwoResolvedB, hhead b rfl, hh]

/-- Reachability invariant of the orchestrator: in-flight generations
are distinct and below the issue counter; after a resolved write no
in-flight generation is current; and the write history never moves
directly from one resolved value to another. -/
structure HomeInv {Data Item : Type} (s : HomeState Data Item) : Prop where
  nd : s.inflight.Nodup
  bound : ∀ g ∈ s.inflight, g < s.issued.length
  headRes : ∀ d, s.history.head? = some (.resolved d) →
    ∀ g ∈ s.inflight, g + 1 ≠ s.issued.length
  chain : noTwoResolvedB s.history = true

section InvariantLemmas

variable {Data Item : Type}
variable (api : RemoteOp → Except ApiError Data) (fmts : Formatters Data Item)

theorem homeInv_init (props : ServerSideResponse Data Item) :
    HomeInv (initHomeState props) := by
  refine ⟨List.nodup_nil, ?_, ?_, rfl⟩
  · intro g hg
    exact absurd hg (List.not_mem_nil g)
  · intro d _ g hg
    exact absurd hg (List.not_mem_nil g)

theorem homeInv_step (s : HomeState Data Item) (e : Event) (h : HomeInv s) :
    HomeInv (step api fmts s e) := by
  cases e with
  | change q t p =>
    by_cases hf : s.firstRun = true
    · rw [step_change_first api fmts s q t p hf]
      exact ⟨h.nd, h.bound, h.headRes, h.chain⟩
    · rw [step_change_notFirst api fmts s q t p (by simpa using hf)]
      refine ⟨?_, ?_, ?_, ?_⟩
      · exact List.nodup_cons.mpr
          ⟨fun hmem => absurd (h.bound _ hmem) (by omega), h.nd⟩
      · intro g hg
        rcases List.mem_cons.mp hg with rfl | hg'
        · simp
        · have := h.bound g hg'
          simp only [List.length_append, List.length_cons, List.length_nil]
          omega
      · intro d hd
        exact absurd hd (by simp)
      · exact noTwoResolvedB_cons _ _ rfl h.chain
  | complete g =>
    by_cases hmem : g ∈ s.inflight
    · by_cases hcur : g + 1 = s.issued.length
      · have hlt : g < s.issued.length := by
          have := h.bound g hmem
          omega
        obtain ⟨i, hi⟩ : ∃ i, s.issued[g]? = some i :=
          ⟨s.issued.get ⟨g, hlt⟩, List.getElem?_eq_getElem hlt⟩
        obtain ⟨h1, h2, h3, h4⟩ := step_complete_apply api fmts s g i hmem hcur hi
        have hiss := step_complete_issued api fmts s g
        refine ⟨step_complete_inflight_nodup api fmts s g h.nd, ?_, ?_, ?_⟩
        · intro g' hg'
          rw [h4] at hg'
          rw [hiss]
          exact h.bound g' (List.mem_of_mem_erase hg')
        · intro d _ g' hg'
          rw [h4] at hg'
          rw [hiss]
          intro hbad
          have hgg : g' = g := by omega
          rw [hgg] at hg'
          exact h.nd.not_mem_erase hg'
        · rw [h3]
          apply noTwoResolvedB_cons_of_head _ _ h.chain
          intro b hb
          cases b with
          | pending => rfl
          | rejected e => rfl
          | resolved d => exact absurd hcur (h.headRes d hb g hmem)
      · have heq : step api fmts s (.complete g) =
            { s with inflight := s.inflight.erase g } := by
          simp [step, hmem, hcur]
        rw [heq]
        refine ⟨h.nd.erase g, ?_, ?_, h.chain⟩
        · intro g' hg'
          exact h.bound g' (List.mem_of_mem_erase hg')
        · intro d hd g' hg'
          exact h.headRes d hd g' (List.mem_of_mem_erase hg')
    · have heq : step api fmts s (.complete g) = s := by
        simp [step, hmem]
      rw [heq]
      exact h

theorem homeInv_run (s : HomeState Data Item) (evs : List Event)
    (h : HomeInv s) : HomeInv (run api fmts s evs) := by
  induction evs generalizing s with
  | nil => exact h
  | cons e rest ih => exact ih _ (homeInv_step api fmts s e h)

end InvariantLemmas

/-- C6: along every client event sequence from mount, the envelope write
history never moves from one resolved value directly to another; and on
every post-first-run intent change the envelope is synchronously written
to pending — before the corresponding fetch can complete, since the new
generation only joins the in-flight set in that same transition. -/
theorem pending_precedes_every_fetch
    (Data Item : Type) (api : RemoteOp → Except ApiError Data)
    (fmts : Formatters Data Item) (props : ServerSideResponse Data Item)
    (evs : List Event) (q : String) (t : Tab) (p : Nat) :
    noTwoResolvedB (run api fmts (initHomeState props) evs).history = true ∧
    ((run api fmts (initHomeState props) evs).firstRun = false →
      (step api fmts (run api fmts (initHomeState props) evs)
          (.change q t p)).searchResults = .pending ∧
      (step api fmts (run api fmts (initHomeState props) evs)
          (.change q t p)).history =
        .pending :: (run api fmts (initHomeState props) evs).history ∧
      (step api fmts (run api fmts (initHomeState props) evs)
          (.change q t p)).inflight =
        (run api fmts (initHomeState props) evs).issued.length ::
          (run api fmts (initHomeState props) evs).inflight) := by
  constructor
  · exact (homeInv_run api fmts _ evs (homeInv_init props)).chain
  · intro hf
    rw [step_change_notFirst api fmts _ q t p hf]
    exact ⟨rfl, rfl, rfl⟩

theorem pending_precedes_every_fetch_witness :
    noTwoResolvedB (run natApi natFmts (initHomeState resolvedProps)
      [changeEvent intentA, changeEvent intentA, Event.complete 0]).history
      = true ∧
    (run natApi natFmts (initHomeState resolvedProps)
      [changeEvent intentA, changeEvent intentA, Event.complete 0]).firstRun
      = false ∧
    (step natApi natFmts (run natApi natFmts (initHomeState resolvedProps)
        [changeEvent intentA, changeEvent intentA, Event.complete 0])
      (.change "robin" .all 1)).searchResults = .pending := by
  have h := pending_precedes_every_fetch Nat Nat natApi natFmts
    resolvedProps [changeEvent intentA, changeEvent intentA, Event.complete 0]
    "robin" .all 1
  exact ⟨h.1, by decide, (h.2 (by decide)).1⟩

/-! Scrolling on intent changes (claim C9). -/

/-- Counterexample to "a change that alters only the page number does
not scroll": starting from the mounted page showing page 1 of the
resolved query `"batman"`/movie, the client-side change to
`{query:"batman", tab:movie, page:2}` — which alters only the page —
raises the scroll count from 1 to 2, because the effect calls
`tabRef.current.scrollIntoView` on every run with a non-empty query
(`src/pages/index.tsx` lines 176-180). -/
theorem page_only_change_scrolls_counterexample :
    (run natApi natFmts (initHomeState noProps)
      [changeEvent intentA, changeEvent intentA, Event.complete 0]).issued =
      [intentA] ∧
    (run natApi natFmts (initHomeState noProps)
      [changeEvent intentA, changeEvent intentA, Event.complete 0]).scrolls
      = 1 ∧
    (step natApi natFmts (run natApi natFmts (initHomeState noProps)
        [changeEvent intentA, changeEvent intentA, Event.complete 0])
      (.change "batman" .movie 2)).scrolls = 2 := by
  refine ⟨by decide, by decide, by decide⟩

/-- C9 as amended: whether a post-first-run intent change scrolls the
results region into view is determined solely by the new query (and the
ref being mounted): it scrolls exactly when the query is non-empty and
non-whitespace — so a page-only change with an active query also
scrolls — and never depends on the tab or page of the change. -/
theorem scroll_determined_by_query
    (Data Item : Type) (api : RemoteOp → Except ApiError Data)
    (fmts : Formatters Data Item) (s : HomeState Data Item)
    (q : String) (t t' : Tab) (p p' : Nat) (hf : s.firstRun = false) :
    (step api fmts s (.change q t p)).scrolls =
      (if hasQuery q && s.tabRef then s.scrolls + 1 else s.scrolls) ∧
    (step api fmts s (.change q t p)).scrolls =
      (step api fmts s (.change q t' p')).scrolls := by
  rw [step_change_notFirst api fmts s q t p hf,
    step_change_notFirst api fmts s q t' p' hf]
  exact ⟨rfl, rfl⟩

theorem scroll_determined_by_query_witness :
    (run natApi natFmts (initHomeState noProps)
      [changeEvent intentA]).firstRun = false ∧
    (step natApi natFmts (run natApi natFmts (initHomeState noProps)
        [changeEvent intentA]) (.change "batman" .movie 2)).scrolls =
      (step natApi natFmts (run natApi natFmts (initHomeState noProps)
        [changeEvent intentA]) (.change "batman" .tv 9)).scrolls := by
  have h := scroll_determined_by_query Nat Nat natApi natFmts
    (run natApi natFmts (initHomeState noProps) [changeEvent intentA])
    "batman" .movie .tv 2 9 (by decide)
  exact ⟨by decide, h.2⟩

/-! The list store and the Lists page (`src/unnamed/part_000`). -/

/-- The display `ListItem` shape (`src/lib/format`, shape from spec
section 3 and the use sites in the detail pages). -/
structure DisplayItem where
  tmdbId : Nat
  mediaType : String
  title : String
  subTitle : Option String := none
  poster : Option String := none
deriving DecidableEq, Repr

/-- Modelled from the spec: the `List` record of `src/lib/api/types`
(not among the provided sources) — `{id, slug, name, items}` per spec
section 3. -/
structure ListType where
  id : Nat
  slug : String
  name : String
  items : List DisplayItem := []
deriving DecidableEq, Repr

/-- The `user` sub-record of `AuthUser` (spec section 3). -/
structure UserInfo where
  id : Nat
  email : String
  name : String
deriving DecidableEq, Repr

/-- Modelled from the spec: `AuthUser` of `src/lib/api/auth` (not among
the provided sources) — `{auth: boolean, user?}`; the sources only ever
read `.auth` and build the literal `{ auth: false }`. -/
structure AuthUser where
  auth : Bool
  user : Option UserInfo := none
deriving DecidableEq, Repr

/-- The actions dispatched to the list store by the Lists page:
`SET_LISTS`, `ADD_LIST`, `UPDATE_LIST`, `REMOVE_LIST`
(`src/unnamed/part_000` lines 110, 133, 146, 179). -/
inductive ListAction where
  | setLists (lists : List ListType)
  | addList (list : ListType)
  | updateList (slug : String) (list : ListType)
  | removeList (slug : String)
deriving DecidableEq, Repr

/-- Modelled from the spec: the list store reducer behind
`useListDispatch` (`src/hooks/useList` is not among the provided
sources).  Spec section 4.4: seeding sets the stored lists; create
appends the returned list; rename replaces the matching list in place,
preserving position; remove deletes the entry. -/
def listReducer (state : Option (List ListType)) (a : ListAction) :
    Option (List ListType) :=
  match a with
  | .setLists lists => some lists
  | .addList l => some ((state.getD []) ++ [l])
  | .updateList slug l =>
    some ((state.getD []).map (fun x => if x.slug == slug then l else x))
  | .removeList slug =>
    some ((state.getD []).filter (fun x => x.slug != slug))

/-- The remote list-API calls the Lists page can issue: `addList(name)`,
`updateList({slug, name})`, `deleteList(slug)` (imports of
`src/unnamed/part_000`). -/
inductive ListCall where
  | addList (name : String)
  | updateList (slug : String) (name : String)
  | deleteList (slug : String)
deriving DecidableEq, Repr

/-- The state of the `Lists` page component (`src/unnamed/part_000`
lines 66-81): the global store behind `useListState().lists`, plus the
local `useState` cells. -/
structure ListsPageState where
  store : Option (List ListType)
  lists : List ListType
  slug : Option String
  name : String
  submitLoading : Bool
  error : Option String
  confirmVisible : Bool
  confirmTitle : String
deriving DecidableEq, Repr

/-- `actionComplete` of `src/unnamed/part_000` (lines 87-104): clear the
form, stop the loading indicator, show the notification. -/
def actionComplete (message : String) (s : ListsPageState) : ListsPageState :=
  { s with
    slug := none
    name := ""
    submitLoading := false
    confirmVisible := true
    confirmTitle := message }

/-- A `listDispatch` call: route the action through the store reducer. -/
def dispatchTo (s : ListsPageState) (a : ListAction) : ListsPageState :=
  { s with store := listReducer s.store a }

/-- The outcome of one Lists-page handler invocation: the new component
state, the remote calls issued, and the actions dispatched to the list
store. -/
structure HandlerResult where
  state : ListsPageState
  calls : List ListCall
  dispatches : List ListAction
deriving DecidableEq, Repr

/-- `handleSubmit` of `src/unnamed/part_000` (lines 122-157), with the
remote call's eventual outcome passed in as `remote`.  Guarded by
`name.trim() !== ''`; with a `slug` set it updates, otherwise it
creates; the dispatch and `actionComplete` run only in the `.then`
branch, while `.catch` only stops the loading state and surfaces
`error.message`. -/
def handleSubmit (remote : Except ApiError ListType) (s : ListsPageState) :
    HandlerResult :=
  if jsTrim s.name != "" then
    let started := { s with error := none, submitLoading := true }
    match s.slug with
    | some slug =>
      match remote with
      | .ok list =>
        ⟨actionComplete "List updated"
            (dispatchTo started (.updateList list.slug list)),
          [.updateList slug s.name], [.updateList list.slug list]⟩
      | .error e =>
        ⟨{ started with submitLoading := false, error := some e.message },
          [.updateList slug s.name], []⟩
    | none =>
      match remote with
      | .ok list =>
        ⟨actionComplete "List added" (dispatchTo started (.addList list)),
          [.addList s.name], [.addList list]⟩
      | .error e =>
        ⟨{ started with submitLoading := false, error := some e.message },
          [.addList s.name], []⟩
  else
    ⟨s, [], []⟩

/-- `handleDelete` of `src/unnamed/part_000` (lines 173-187): no guard;
dispatch `REMOVE_LIST` and `actionComplete` on success, surface
`error.message` on failure. -/
def handleDelete (remote : Except ApiError Unit) (target : ListType)
    (s : ListsPageState) : HandlerResult :=
  match remote with
  | .ok _ =>
    ⟨actionComplete "List removed" (dispatchTo s (.removeList target.slug)),
      [.deleteList target.slug], [.removeList target.slug]⟩
  | .error e =>
    ⟨{ s with error := some e.message }, [.deleteList target.slug], []⟩

/-- The seed effect of `src/unnamed/part_000` (lines 107-112): dispatch
`SET_LISTS` with the page's lists only when the global `listState.lists`
is still undefined (JS falsy; an array — even an empty one — is truthy).
Returns the store after the effect and the dispatches it issued. -/
def seedEffect (listStateLists : Option (List ListType))
    (lists : List ListType) : Option (List ListType) × List ListAction :=
  match listStateLists with
  | none => (listReducer none (.setLists lists), [.setLists lists])
  | some _ => (listStateLists, [])

/-! Server-side rendering result and the auth gate (claim C8). -/

/-- What a Next.js `getServerSideProps` returns: either a redirect
(`{redirect: {destination, permanent}}`) or page props. -/
inductive SSRResult (P : Type) where
  | redirect (destination : String) (permanent : Bool)
  | props (value : P)
deriving DecidableEq, Repr

/-- The Lists page's `ServerSideResponse`: `{user, lists}`
(`src/unnamed/part_000` lines 20-23). -/
structure ListsProps where
  user : AuthUser
  lists : List ListType
deriving DecidableEq, Repr

/-- `getServerSideProps` of the Lists page (`src/unnamed/part_000`
lines 26-61): resolve the user, treating a thrown auth error as
`{ auth: false }`; bounce to `/` when not logged in — the list fetch
happens only after that check; a failed list fetch yields `[]`. -/
def listsGetServerSideProps (authResult : Except ApiError AuthUser)
    (listsResult : Except ApiError (List ListType)) : SSRResult ListsProps :=
  let user : AuthUser :=
    match authResult with
    | .ok u => u
    | .error _ => { auth := false }
  if !user.auth then
    .redirect "/" false
  else
    let lists : List ListType :=
      match listsResult with
      | .ok ls => ls
      | .error _ => []
    .props ⟨user, lists⟩

/-- The `WithAuth` component (`src/components/assets/WithAuth.tsx` lines
13-24): `router.replace('/')` exactly when
`(restricted && !auth) || (!restricted && auth)`. -/
def withAuthRedirect (restricted auth : Bool) : Option String :=
  if (restricted && !auth) || (!restricted && auth) then some "/" else none

/-- C2: when the remote call behind a Lists-page mutation fails, no
action is dispatched to the list store — the stored set of lists is
exactly what it was — and the failure's `ApiError.message` is surfaced
in the page's error state, where a successful create/rename leaves the
error state `none` (so failure is distinguishable from success).  The
call issued is `addList(name)` without a selected slug, and
`updateList(slug, name)` with one; deletion issues `deleteList(slug)`. -/
theorem failed_mutation_leaves_store_unchanged
    (s : ListsPageState) (e : ApiError) (l : ListType) (t : ListType)
    (hname : (jsTrim s.name != "") = true) :
    (handleSubmit (.error e) s).dispatches = [] ∧
    (handleSubmit (.error e) s).state.store = s.store ∧
    (handleSubmit (.error e) s).state.error = some e.message ∧
    (handleDelete (.error e) t s).dispatches = [] ∧
    (handleDelete (.error e) t s).state.store = s.store ∧
    (handleDelete (.error e) t s).state.error = some e.message ∧
    (handleDelete (.error e) t s).calls = [.deleteList t.slug] ∧
    (s.slug = none →
      (handleSubmit (.error e) s).calls = [.addList s.name]) ∧
    (∀ sl, s.slug = some sl →
      (handleSubmit (.error e) s).calls = [.updateList sl s.name]) ∧
    (handleSubmit (.ok l) s).state.error = none := by
  cases hs : s.slug with
  | none =>
    refine ⟨?_, ?_, ?_, rfl, rfl, rfl, rfl, ?_, ?_, ?_⟩ <;>
      simp [handleSubmit, hname, hs, actionComplete, dispatchTo]
  | some sl =>
    refine ⟨?_, ?_, ?_, rfl, rfl, rfl, rfl, ?_, ?_, ?_⟩ <;>
      simp [handleSubmit, hname, hs, actionComplete, dispatchTo]

theorem failed_mutation_leaves_store_unchanged_witness :
    (jsTrim "Favourites" != "") = true ∧
    (handleSubmit (.error ⟨500, "boom"⟩)
      ⟨some [⟨1, "films", "Films", []⟩], [⟨1, "films", "Films", []⟩],
        none, "Favourites", false, none, false, ""⟩).dispatches = [] ∧
    (handleSubmit (.error ⟨500, "boom"⟩)
      ⟨some [⟨1, "films", "Films", []⟩], [⟨1, "films", "Films", []⟩],
        none, "Favourites", false, none, false, ""⟩).state.store =
      some [⟨1, "films", "Films", []⟩] ∧
    (handleSubmit (.error ⟨500, "boom"⟩)
      ⟨some [⟨1, "films", "Films", []⟩], [⟨1, "films", "Films", []⟩],
        none, "Favourites", false, none, false, ""⟩).state.error =
      some "boom" := by
  have h := failed_mutation_leaves_store_unchanged
    ⟨some [⟨1, "films", "Films", []⟩], [⟨1, "films", "Films", []⟩],
      none, "Favourites", false, none, false, ""⟩
    ⟨500, "boom"⟩ ⟨2, "new", "New", []⟩ ⟨1, "films", "Films", []⟩
    (by decide)
  exact ⟨by decide, h.1, h.2.1, h.2.2.1⟩

/-- C3: the `SET_LISTS` seed dispatch of the Lists page fires only while
the global store holds no lists (is still unset): the first seed is
retained, a second seed attempt with a different payload dispatches
nothing and leaves the store unchanged, and no seed ever fires once the
store holds a value. -/
theorem seed_dispatch_only_when_unset
    (a b : List ListType) (st : List ListType) (p : List ListType) :
    (seedEffect none a).1 = some a ∧
    (seedEffect none a).2 = [.setLists a] ∧
    (seedEffect (seedEffect none a).1 b).1 = some a ∧
    (seedEffect (seedEffect none a).1 b).2 = [] ∧
    seedEffect (some st) p = (some st, []) := by
  exact ⟨rfl, rfl, rfl, rfl, rfl⟩

/-- C8: a failed auth resolution renders the Lists page exactly as an
anonymous user does; the anonymous Lists page render is a redirect to
`/` whose value is independent of the list fetch (so no list data is
needed before redirecting); and the client gate `WithAuth` redirects to
`/` on a restricted page without auth and on an anonymity-only page
with auth. -/
theorem auth_failure_is_anonymous_and_gated
    (e : ApiError) (u : AuthUser)
    (lr lr' : Except ApiError (List ListType)) (hu : u.auth = false) :
    listsGetServerSideProps (.error e) lr = .redirect "/" false ∧
    listsGetServerSideProps (.error e) lr =
      listsGetServerSideProps (.ok { auth := false }) lr ∧
    listsGetServerSideProps (.ok u) lr = .redirect "/" false ∧
    listsGetServerSideProps (.ok u) lr =
      listsGetServerSideProps (.ok u) lr' ∧
    withAuthRedirect true false = some "/" ∧
    withAuthRedirect false true = some "/" := by
  refine ⟨rfl, rfl, ?_, ?_, rfl, rfl⟩
  · simp [listsGetServerSideProps, hu]
  · simp [listsGetServerSideProps, hu]

theorem auth_failure_is_anonymous_and_gated_witness :
    (AuthUser.mk false none).auth = false ∧
    listsGetServerSideProps (.error ⟨401, "no session"⟩)
      (.ok [⟨1, "films", "Films", []⟩]) = .redirect "/" false ∧
    listsGetServerSideProps (.ok ⟨false, none⟩)
      (.ok [⟨1, "films", "Films", []⟩]) = .redirect "/" false := by
  have h := auth_failure_is_anonymous_and_gated ⟨401, "no session"⟩
    ⟨false, none⟩ (.ok [⟨1, "films", "Films", []⟩])
    (.error ⟨500, "down"⟩) (by decide)
  exact ⟨by decide, h.1, h.2.2.1⟩

/-- C10: submitting the list form with an empty or whitespace-only name
is a complete no-op — no remote call, no dispatch, and the component
state (error, loading, form fields and all) exactly as before. -/
theorem empty_name_submit_is_noop (r : Except ApiError ListType)
    (s : ListsPageState) (h : jsTrim s.name = "") :
    handleSubmit r s = ⟨s, [], []⟩ := by
  simp [handleSubmit, h]

theorem empty_name_submit_is_noop_witness :
    jsTrim "   " = "" ∧
    handleSubmit (.ok ⟨2, "new", "New", []⟩)
      ⟨some [⟨1, "films", "Films", []⟩], [⟨1, "films", "Films", []⟩],
        none, "   ", false, none, false, ""⟩ =
      ⟨⟨some [⟨1, "films", "Films", []⟩], [⟨1, "films", "Films", []⟩],
        none, "   ", false, none, false, ""⟩, [], []⟩ := by
  exact ⟨by decide, empty_name_submit_is_noop (.ok ⟨2, "new", "New", []⟩)
    _ (by decide)⟩

end Movies
